import Mathlib

/-! Shallow embedding of `flu_model.py` (spencersmith20/COVID-19-Visualization).

The agent-based flu model: `FluAgent` carries the epidemiological state,
`FluAgent.status` / `FluAgent.move` / `FluAgent.contact` are the per-tick
operations, `FluModel.init` is the constructor and `FluModel.sample` the
weighted sampling estimator over the recorded history.  Randomness is made
explicit: every stochastic draw of the Python code becomes an input value
(a rational for a `normalvariate` / `random()` draw, a `Bool` for a
Bernoulli outcome, an index for a uniform choice).  Fallible Python code
(exceptions: `AttributeError`, `ValueError`, `IndexError`) is embedded as
`Except String`. -/

/-- State enum class of `flu_model.py` (`SUSCEPTIBLE = 0, INFECTED = 1, RECOVERED = 2`). -/
inductive State where
  | SUSCEPTIBLE
  | INFECTED
  | RECOVERED
deriving DecidableEq, Repr

/-- Integer value of the `IntEnum` members. -/
def State.val : State → ℤ
  | State.SUSCEPTIBLE => 0
  | State.INFECTED => 1
  | State.RECOVERED => 2

/-- One individual (`FluAgent.__init__`): `recovery_time` is `none` until the
attribute is first assigned (it is not set by the constructor). -/
structure FluAgent where
  unique_id : ℕ
  state : State
  infection_time : ℤ
  recovery_time : Option ℤ
  age : ℚ
  p_test : ℚ
  pos : ℤ × ℤ
deriving DecidableEq, Repr

/-- The model state (`FluModel`): `scheduled` is the scheduler's membership
(ids currently in `RandomActivation`), `agents` is the set of agents placed on
the grid, each carrying its own cell in `pos`.  `schedule.remove` shrinks
`scheduled` only; nothing in the source ever removes an agent from the grid. -/
structure FluModel where
  num_agents : ℤ
  width : ℤ
  height : ℤ
  death_rate : ℚ
  ptrans : ℚ
  recovery_days : ℚ
  recovery_sd : ℚ
  init_inf : ℚ
  biased : Bool
  deceased : ℕ
  time : ℤ
  scheduled : List ℕ
  agents : List FluAgent
deriving DecidableEq, Repr

/-- Python `int()` applied to a real draw: truncation toward zero
(`FluModel.get_recovery_time` wraps the `normalvariate` draw in `int(...)`). -/
def pyInt (x : ℚ) : ℤ := if 0 ≤ x then ⌊x⌋ else ⌈x⌉

/-- `FluModel.get_recovery_time`, with the `normalvariate(recovery_days,
recovery_sd)` draw passed in explicitly as `draw`. -/
def get_recovery_time (draw : ℚ) : ℤ := pyInt draw

/-- Random draws consumed by one call of `FluAgent.status`. -/
structure StatusDraws where
  pTestInfected : ℚ
  alive : Bool
  pTestRecovered : ℚ

/-- Lines 58-68 of `FluAgent.status`: the recovery check, run on the model
state `m1` left by the death check.  It reads `self.recovery_time` (an
`AttributeError` if the attribute was never assigned), compares it against
elapsed time `t = schedule.time - infection_time`, and on recovery sets the
state and (when biased) redraws `p_test` from `normalvariate(0.5, 0.05)`. -/
def statusRecovery (m1 : FluModel) (a1 : FluAgent) (d : StatusDraws) :
    Except String (FluModel × FluAgent) :=
  match a1.recovery_time with
  | none => Except.error "AttributeError: recovery_time"
  | some rt =>
    if rt ≤ m1.time - a1.infection_time then
      Except.ok (m1,
        if m1.biased then
          { a1 with state := State.RECOVERED, p_test := d.pTestRecovered }
        else { a1 with state := State.RECOVERED })
    else Except.ok (m1, a1)

/-- Lines 49-56 of `FluAgent.status`: the stochastic death check.  On death
(`alive == 0`) increment `deceased` and remove the agent from the scheduler —
and then fall through to the recovery check either way (the source has no
early return on death). -/
def statusDeath (m : FluModel) (a1 : FluAgent) (d : StatusDraws) :
    Except String (FluModel × FluAgent) :=
  statusRecovery
    (if d.alive then m
     else { m with deceased := m.deceased + 1,
                   scheduled := m.scheduled.erase a1.unique_id })
    a1 d

/-- `FluAgent.status`.  Inside the `state == INFECTED` branch: the biased
`p_test` redraw from `normalvariate(2, 0.25)`, then the death check
(`np.random.choice([0,1], p=[drate, 1-drate])` validates its probability
vector first), then the recovery check. -/
def FluAgent.status (m : FluModel) (a : FluAgent) (d : StatusDraws) :
    Except String (FluModel × FluAgent) :=
  if a.state = State.INFECTED then
    if m.death_rate < 0 ∨ 1 < m.death_rate then
      Except.error "ValueError: probabilities are not non-negative"
    else
      statusDeath m (if m.biased then { a with p_test := d.pTestInfected } else a) d
  else Except.ok (m, a)

/-- Random draws consumed for one cellmate in `FluAgent.contact`: the uniform
`random()` draw, and the `normalvariate` draw used by `get_recovery_time` when
a transmission happens. -/
structure ContactDraw where
  u : ℚ
  recoveryDraw : ℚ

/-- Body of the cellmate loop of `FluAgent.contact` for one `other`:
skip when `random() > ptrans`; otherwise, if the acting agent is INFECTED and
`other` is SUSCEPTIBLE, infect `other` and draw its recovery time. -/
def contactUpdate (st : State) (ptrans : ℚ) (time : ℤ) (d : ContactDraw)
    (other : FluAgent) : FluAgent :=
  if ptrans < d.u then other
  else if st = State.INFECTED ∧ other.state = State.SUSCEPTIBLE then
    { other with state := State.INFECTED, infection_time := time,
                 recovery_time := some (get_recovery_time d.recoveryDraw) }
  else other

/-- The cellmate loop of `FluAgent.contact`, applied to the whole agent list:
agents on the acting agent's cell are updated in list order, consuming one
`ContactDraw` each; agents on other cells are untouched.  `k` indexes the
draw stream. -/
def contactList (st : State) (ptrans : ℚ) (time : ℤ) (pos : ℤ × ℤ)
    (draws : ℕ → ContactDraw) : List FluAgent → ℕ → List FluAgent
  | [], _ => []
  | x :: xs, k =>
    if x.pos = pos then
      contactUpdate st ptrans time (draws k) x ::
        contactList st ptrans time pos draws xs (k + 1)
    else
      x :: contactList st ptrans time pos draws xs k

/-- `FluAgent.contact`: `cellmates = grid.get_cell_list_contents([self.pos])`
is every agent on the acting agent's cell (the scheduler plays no part here);
the loop runs only when `len(cellmates) > 1`. -/
def FluAgent.contact (m : FluModel) (a : FluAgent) (draws : ℕ → ContactDraw) :
    FluModel :=
  if 1 < (m.agents.filter (fun x => decide (x.pos = a.pos))).length then
    { m with agents := contactList a.state m.ptrans m.time a.pos draws m.agents 0 }
  else m

/-- The 9 cells of the Moore neighborhood including the center, as offsets. -/
def mooreOffsets : List (ℤ × ℤ) :=
  [(-1,-1), (-1,0), (-1,1), (0,-1), (0,0), (0,1), (1,-1), (1,0), (1,1)]

/-- `FluAgent.move`: pick one of the 9 Moore cells (with center) and move
there, wrapping toroidally (`%` on a positive modulus, as in Python). -/
def FluAgent.move (m : FluModel) (a : FluAgent) (c : Fin 9) : FluAgent :=
  let off := mooreOffsets.get ⟨c.val, c.isLt⟩
  { a with pos := ((a.pos.1 + off.1) % m.width, (a.pos.2 + off.2) % m.height) }

/-- Random draws consumed by one `FluAgent.step`. -/
structure StepDraws where
  statusDraws : StatusDraws
  moveChoice : Fin 9
  contactDraws : ℕ → ContactDraw

/-- `FluAgent.step`: `self.status(); self.move(); self.contact()`, for the
agent at position `ja` of the agent list.  Python mutates the agent object in
place, so each phase's result is written back before the next phase runs. -/
def FluAgent.step (m : FluModel) (ja : ℕ) (d : StepDraws) :
    Except String FluModel :=
  match m.agents.get? ja with
  | none => Except.error "KeyError: agent"
  | some a =>
    match FluAgent.status m a d.statusDraws with
    | Except.error e => Except.error e
    | Except.ok (m1, a1) =>
      let m2 := { m1 with agents := m1.agents.set ja a1 }
      let a2 := FluAgent.move m2 a1 d.moveChoice
      let m3 := { m2 with agents := m2.agents.set ja a2 }
      Except.ok (FluAgent.contact m3 a2 d.contactDraws)

/-- Constructor configuration of `FluModel.__init__`, with the source's
default values. -/
structure FluConfig where
  N : ℤ
  width : ℤ := 10
  height : ℤ := 10
  death_rate : ℚ := 6 / 1000
  ptrans : ℚ := 1 / 2
  recovery_days : ℚ := 24
  recovery_sd : ℚ := 6
  init_inf : ℚ := 3 / 2
  biased : Bool := false

/-- Random draws consumed by `FluModel.__init__`, indexed by agent id. -/
structure InitDraws where
  age : ℕ → ℚ
  pTest : ℕ → ℚ
  placeX : ℕ → ℕ
  placeY : ℕ → ℕ
  infected : ℕ → Bool
  recDraw : ℕ → ℚ
  fallbackIdx : ℕ
  fallbackRec : ℚ

/-- One iteration of the construction loop: create the agent, place it
(`randrange` raises on a non-positive range), draw the initial-infection
Bernoulli (`np.random.choice` validates `p=[1-init_inf, init_inf]`), and on
success mark it INFECTED with a drawn recovery time. -/
def initAgent (c : FluConfig) (d : InitDraws) (i : ℕ) : Except String FluAgent :=
  if c.width ≤ 0 ∨ c.height ≤ 0 then
    Except.error "ValueError: empty range for randrange"
  else if c.init_inf / 100 < 0 ∨ 1 < c.init_inf / 100 then
    Except.error "ValueError: probabilities are not non-negative"
  else
    let a : FluAgent :=
      { unique_id := i, state := State.SUSCEPTIBLE, infection_time := 0,
        recovery_time := none, age := d.age i, p_test := d.pTest i,
        pos := ((d.placeX i : ℤ) % c.width, (d.placeY i : ℤ) % c.height) }
    if d.infected i then
      Except.ok { a with state := State.INFECTED,
                         recovery_time := some (get_recovery_time (d.recDraw i)) }
    else Except.ok a

/-- The fallback forced infection of `FluModel.__init__` (it sets `state` and
`recovery_time` only; `infection_time` keeps its initial 0). -/
def forceInfect (d : InitDraws) (a : FluAgent) : FluAgent :=
  { a with state := State.INFECTED,
           recovery_time := some (get_recovery_time d.fallbackRec) }

/-- Assemble the model record from the configuration and the built agents
(all of them are added to the scheduler and placed on the grid). -/
def mkModel (c : FluConfig) (agents : List FluAgent) : FluModel :=
  { num_agents := c.N, width := c.width, height := c.height,
    death_rate := c.death_rate, ptrans := c.ptrans,
    recovery_days := c.recovery_days, recovery_sd := c.recovery_sd,
    init_inf := c.init_inf / 100, biased := c.biased,
    deceased := 0, time := 0,
    scheduled := agents.map (fun a => a.unique_id), agents := agents }

/-- Apply the fallback forced infection to the agent at position `k` of the
built agent list (`j` is the position of the list head). -/
def applyFallback (d : InitDraws) (k : ℕ) : List FluAgent → ℕ → List FluAgent
  | [], _ => []
  | a :: as, j => (if j = k then forceInfect d a else a) :: applyFallback d k as (j + 1)

/-- The construction loop `for i in range(self.num_agents)`: run `initAgent`
for each id in turn, aborting on the first exception. -/
def initAgents (c : FluConfig) (d : InitDraws) : List ℕ → Except String (List FluAgent)
  | [] => Except.ok []
  | i :: rest =>
    match initAgent c d i with
    | Except.error e => Except.error e
    | Except.ok a =>
      match initAgents c d rest with
      | Except.error e => Except.error e
      | Except.ok as => Except.ok (a :: as)

/-- `FluModel.__init__`: build the `N` agents (`range(N)` is empty for a
non-positive `N`), then, when `init_inf/100 * N < 1`, force one uniformly
chosen agent into INFECTED (`random.choice` raises `IndexError` on an empty
population).  No configuration value is validated anywhere. -/
def FluModel.init (c : FluConfig) (d : InitDraws) : Except String FluModel :=
  match initAgents c d (List.range c.N.toNat) with
  | Except.error e => Except.error e
  | Except.ok agents =>
    if c.init_inf / 100 * (c.N : ℚ) < 1 then
      if agents.isEmpty then
        Except.error "IndexError: cannot choose from an empty sequence"
      else
        Except.ok (mkModel c
          (applyFallback d (d.fallbackIdx % agents.length) agents 0))
    else Except.ok (mkModel c agents)

/-- One row of the `DataCollector` history: `(Step, AgentID) -> (State, p)`. -/
structure Record where
  step : ℤ
  agent_id : ℕ
  state : State
  p : ℚ
deriving DecidableEq, Repr

/-- Python `round` (banker's rounding, ties to even), used by pandas to turn
`frac` into a sample size. -/
def pyRound (x : ℚ) : ℤ :=
  if x - ⌊x⌋ < 1 / 2 then ⌊x⌋
  else if 1 / 2 < x - ⌊x⌋ then ⌊x⌋ + 1
  else if ⌊x⌋ % 2 = 0 then ⌊x⌋ else ⌊x⌋ + 1

/-- Total lookup into a nonempty list, used to model one weighted pick of
`np.random.choice` (the oracle index `j` is reduced modulo the list length,
so the default branch of `getD` is unreachable). -/
def cyclicGet (x : Record × ℚ) (xs : List (Record × ℚ)) (j : ℕ) : Record × ℚ :=
  (x :: xs).getD (j % (x :: xs).length) x

/-- Remove the first occurrence of `x` (the picked entry) from the pool of
remaining records, as sampling without replacement does. -/
def eraseFirst : List (Record × ℚ) → (Record × ℚ) → List (Record × ℚ)
  | [], _ => []
  | y :: ys, x => if y = x then ys else y :: eraseFirst ys x

/-- `np.random.choice(..., size=n, replace=False, p=w)`: `n` picks without
replacement, each among the remaining entries of strictly positive weight
(a zero-probability entry is never chosen); when fewer positive entries than
picks remain, numpy raises.  `sel` is the selection oracle standing for the
seeded PRNG, `stepIdx` its counter. -/
def drawWOR (sel : ℕ → ℕ) : ℕ → ℕ → List (Record × ℚ) → Except String (List Record)
  | _, 0, _ => Except.ok []
  | stepIdx, n + 1, items =>
    match items.filter (fun x => decide (0 < x.2)) with
    | [] => Except.error "Fewer non-zero entries in p than size"
    | z :: zs =>
      let pick := cyclicGet z zs (sel stepIdx)
      match drawWOR sel (stepIdx + 1) n (eraseFirst items pick) with
      | Except.error e => Except.error e
      | Except.ok rest => Except.ok (pick.1 :: rest)

/-- `weights = df.p / sum(df.p)` restricted to the rows of step `i`: each
record of the tick, paired with its weight normalized over the WHOLE
history (the source normalizes over all ticks, not the sampled one). -/
def sampleTickWeights (hist : List Record) (i : ℤ) : List (Record × ℚ) :=
  (hist.filter (fun r => decide (r.step = i))).map
    (fun r => (r, r.p / (hist.map (fun r => r.p)).sum))

/-- The drawing stage of `df.sample`: re-normalize the aligned weights,
compute the sample size `round(frac * len)`, draw that many rows without
replacement, and count the sampled INFECTED rows (`df2[df2.State == 1]`). -/
def sampleDraw (sel : ℕ → ℕ) (percent : ℚ) (aligned : List (Record × ℚ)) :
    Except String ℕ :=
  match drawWOR sel 0 (pyRound (percent / 100 * (aligned.length : ℚ))).toNat
      (aligned.map (fun x => (x.1, x.2 / (aligned.map (fun x => x.2)).sum))) with
  | Except.error e => Except.error e
  | Except.ok chosen =>
    Except.ok (chosen.countP (fun r => decide (r.state = State.INFECTED)))

/-- `FluModel.sample(percent, i)` over the recorded history `hist`:
normalize `p` over the whole history, select the rows of step `i`, then
`df.sample(frac=percent/100, weights=...)` — pandas first rejects negative
weights, then rejects a weight vector summing to zero (the guard in front of
its normalizing division), then draws `round(frac*len)` rows without
replacement; finally count the sampled rows with `State == 1` (INFECTED). -/
def FluModel.sample (hist : List Record) (sel : ℕ → ℕ) (percent : ℚ) (i : ℤ) :
    Except String ℕ :=
  if (sampleTickWeights hist i).any (fun x => decide (x.2 < 0)) then
    Except.error "weight vector many not include negative values"
  else if ((sampleTickWeights hist i).map (fun x => x.2)).sum = 0 then
    Except.error "Invalid weights: weights sum to zero"
  else sampleDraw sel percent (sampleTickWeights hist i)

/-! ## Helper lemmas -/

/-- The monotone transition relation SUSCEPTIBLE → INFECTED → RECOVERED:
either no change, or one forward step along the order. -/
def stepOK (s s' : State) : Prop :=
  s = s' ∨ (s = State.SUSCEPTIBLE ∧ s' = State.INFECTED) ∨
    (s = State.INFECTED ∧ s' = State.RECOVERED)

theorem stepOK_refl (s : State) : stepOK s s := Or.inl rfl

theorem contactUpdate_unique_id (st : State) (pt : ℚ) (tm : ℤ) (d : ContactDraw)
    (x : FluAgent) : (contactUpdate st pt tm d x).unique_id = x.unique_id := by
  unfold contactUpdate
  split
  · rfl
  · split <;> rfl

theorem contactUpdate_pos (st : State) (pt : ℚ) (tm : ℤ) (d : ContactDraw)
    (x : FluAgent) : (contactUpdate st pt tm d x).pos = x.pos := by
  unfold contactUpdate
  split
  · rfl
  · split <;> rfl

theorem contactUpdate_skip (st : State) (pt : ℚ) (tm : ℤ) (d : ContactDraw)
    (x : FluAgent) (h : pt < d.u) : contactUpdate st pt tm d x = x := by
  unfold contactUpdate
  rw [if_pos h]

theorem contactUpdate_stepOK (st : State) (pt : ℚ) (tm : ℤ) (d : ContactDraw)
    (x : FluAgent) : stepOK x.state (contactUpdate st pt tm d x).state := by
  unfold contactUpdate
  split
  · exact stepOK_refl _
  · split
    · next h =>
      exact Or.inr (Or.inl ⟨h.2, rfl⟩)
    · exact stepOK_refl _

theorem contactUpdate_wf (st : State) (pt : ℚ) (tm : ℤ) (d : ContactDraw)
    (x : FluAgent) (h : x.state = State.INFECTED → x.recovery_time.isSome) :
    (contactUpdate st pt tm d x).state = State.INFECTED →
      (contactUpdate st pt tm d x).recovery_time.isSome := by
  unfold contactUpdate
  split
  · exact h
  · split
    · intro _
      rfl
    · exact h

theorem contactList_skip (st : State) (pt : ℚ) (tm : ℤ) (pos : ℤ × ℤ)
    (draws : ℕ → ContactDraw) (hskip : ∀ k, pt < (draws k).u) :
    ∀ (l : List FluAgent) (k : ℕ), contactList st pt tm pos draws l k = l := by
  intro l
  induction l with
  | nil => intro k; rfl
  | cons x xs ih =>
    intro k
    unfold contactList
    split
    · rw [contactUpdate_skip _ _ _ _ _ (hskip k), ih]
    · rw [ih]

theorem contactList_get? (st : State) (pt : ℚ) (tm : ℤ) (pos : ℤ × ℤ)
    (draws : ℕ → ContactDraw) :
    ∀ (l : List FluAgent) (k j : ℕ) (b : FluAgent),
      (contactList st pt tm pos draws l k).get? j = some b →
      ∃ x, l.get? j = some x ∧
        (b = x ∨ ∃ n, b = contactUpdate st pt tm (draws n) x) := by
  intro l
  induction l with
  | nil => intro k j b h; simp [contactList] at h
  | cons x xs ih =>
    intro k j b h
    unfold contactList at h
    split at h
    · cases j with
      | zero =>
        refine ⟨x, rfl, ?_⟩
        simp only [List.get?_cons_zero, Option.some.injEq] at h
        exact Or.inr ⟨k, h.symm⟩
      | succ j' =>
        simp only [List.get?_cons_succ] at h ⊢
        exact ih (k + 1) j' b h
    · cases j with
      | zero =>
        refine ⟨x, rfl, ?_⟩
        simp only [List.get?_cons_zero, Option.some.injEq] at h
        exact Or.inl h.symm
      | succ j' =>
        simp only [List.get?_cons_succ] at h ⊢
        exact ih k j' b h

theorem contactList_map_uid (st : State) (pt : ℚ) (tm : ℤ) (pos : ℤ × ℤ)
    (draws : ℕ → ContactDraw) :
    ∀ (l : List FluAgent) (k : ℕ),
      (contactList st pt tm pos draws l k).map (fun x => x.unique_id) =
        l.map (fun x => x.unique_id) := by
  intro l
  induction l with
  | nil => intro k; rfl
  | cons x xs ih =>
    intro k
    unfold contactList
    split
    · simp only [List.map_cons, contactUpdate_unique_id, ih]
    · simp only [List.map_cons, ih]

theorem contactList_wf (st : State) (pt : ℚ) (tm : ℤ) (pos : ℤ × ℤ)
    (draws : ℕ → ContactDraw) :
    ∀ (l : List FluAgent) (k : ℕ),
      (∀ x ∈ l, x.state = State.INFECTED → x.recovery_time.isSome) →
      ∀ b ∈ contactList st pt tm pos draws l k,
        b.state = State.INFECTED → b.recovery_time.isSome := by
  intro l
  induction l with
  | nil => intro k _ b hb; simp [contactList] at hb
  | cons x xs ih =>
    intro k hl b hb
    unfold contactList at hb
    split at hb
    · rcases List.mem_cons.mp hb with h | h
      · subst h
        exact contactUpdate_wf _ _ _ _ _ (hl x (List.mem_cons_self _ _))
      · exact ih (k + 1) (fun y hy => hl y (List.mem_cons_of_mem _ hy)) b h
    · rcases List.mem_cons.mp hb with h | h
      · subst h
        exact hl b (List.mem_cons_self _ _)
      · exact ih k (fun y hy => hl y (List.mem_cons_of_mem _ hy)) b h


theorem statusRecovery_model (m1 : FluModel) (a1 : FluAgent) (d : StatusDraws)
    (m' : FluModel) (a' : FluAgent)
    (h : statusRecovery m1 a1 d = Except.ok (m', a')) : m' = m1 := by
  unfold statusRecovery at h
  repeat' split at h
  all_goals simp_all

theorem statusRecovery_agent (m1 : FluModel) (a1 : FluAgent) (d : StatusDraws)
    (m' : FluModel) (a' : FluAgent)
    (h : statusRecovery m1 a1 d = Except.ok (m', a')) :
    a' = a1 ∨ a' = { a1 with state := State.RECOVERED, p_test := d.pTestRecovered } ∨
      a' = { a1 with state := State.RECOVERED } := by
  unfold statusRecovery at h
  repeat' split at h
  all_goals simp_all

theorem statusDeath_shape (m : FluModel) (a1 : FluAgent) (d : StatusDraws)
    (m' : FluModel) (a' : FluAgent)
    (h : statusDeath m a1 d = Except.ok (m', a')) :
    (m' = m ∨ m' = { m with deceased := m.deceased + 1,
                            scheduled := m.scheduled.erase a1.unique_id }) ∧
      (a' = a1 ∨ a' = { a1 with state := State.RECOVERED, p_test := d.pTestRecovered } ∨
        a' = { a1 with state := State.RECOVERED }) := by
  unfold statusDeath at h
  split at h
  · exact ⟨Or.inl (statusRecovery_model _ _ _ _ _ h), statusRecovery_agent _ _ _ _ _ h⟩
  · exact ⟨Or.inr (statusRecovery_model _ _ _ _ _ h), statusRecovery_agent _ _ _ _ _ h⟩

theorem status_shape (m : FluModel) (a : FluAgent) (d : StatusDraws)
    (m' : FluModel) (a' : FluAgent)
    (h : FluAgent.status m a d = Except.ok (m', a')) :
    (m'.agents = m.agents ∧ m'.time = m.time ∧ a'.unique_id = a.unique_id ∧
      a'.pos = a.pos ∧ stepOK a.state a'.state) := by
  unfold FluAgent.status at h
  split at h
  · next hinf =>
    split at h
    · simp at h
    · obtain ⟨hm, ha⟩ := statusDeath_shape _ _ _ _ _ h
      have huid : ∀ b : FluAgent,
          (if m.biased then { a with p_test := d.pTestInfected } else a) = b →
          b.unique_id = a.unique_id ∧ b.pos = a.pos ∧ b.state = a.state := by
        intro b hb
        rw [← hb]
        split <;> exact ⟨rfl, rfl, rfl⟩
      obtain ⟨h1, h2, h3⟩ := huid _ rfl
      constructor
      · rcases hm with hm | hm <;> simp [hm]
      constructor
      · rcases hm with hm | hm <;> simp [hm]
      constructor
      · rcases ha with ha | ha | ha <;> simp [ha, h1]
      constructor
      · rcases ha with ha | ha | ha <;> simp [ha, h2]
      · rcases ha with ha | ha | ha <;> simp [ha, h3, stepOK_refl]
        · exact Or.inr (Or.inr ⟨hinf, by simp [ha]⟩)
        · exact Or.inr (Or.inr ⟨hinf, by simp [ha]⟩)
  · simp only [Except.ok.injEq, Prod.mk.injEq] at h
    obtain ⟨h1, h2⟩ := h
    subst h1; subst h2
    exact ⟨rfl, rfl, rfl, rfl, stepOK_refl _⟩

theorem initAgents_ok (c : FluConfig) (d : InitDraws) :
    ∀ l : List ℕ, (∀ i ∈ l, (initAgent c d i).isOk = true) →
      ∃ as, initAgents c d l = Except.ok as ∧ as.length = l.length := by
  intro l
  induction l with
  | nil => exact fun _ => ⟨[], rfl, rfl⟩
  | cons x xs ih =>
    intro hl
    have hx := hl x (List.mem_cons_self _ _)
    obtain ⟨as, h1, h2⟩ := ih (fun i hi => hl i (List.mem_cons_of_mem _ hi))
    unfold initAgents
    cases hfx : initAgent c d x with
    | error e => rw [hfx] at hx; exact absurd hx (by simp [Except.isOk, Except.toBool])
    | ok a =>
      rw [h1]
      exact ⟨a :: as, rfl, by simp [h2]⟩

theorem initAgents_mem (c : FluConfig) (d : InitDraws) :
    ∀ (l : List ℕ) (as : List FluAgent), initAgents c d l = Except.ok as →
      ∀ a ∈ as, ∃ i, initAgent c d i = Except.ok a := by
  intro l
  induction l with
  | nil =>
    intro as h a ha
    unfold initAgents at h
    simp only [Except.ok.injEq] at h
    subst h
    simp at ha
  | cons x xs ih =>
    intro as h a ha
    unfold initAgents at h
    cases hfx : initAgent c d x with
    | error e => rw [hfx] at h; simp at h
    | ok b =>
      rw [hfx] at h
      cases hrest : initAgents c d xs with
      | error e => rw [hrest] at h; simp at h
      | ok bs =>
        rw [hrest] at h
        simp only [Except.ok.injEq] at h
        subst h
        rcases List.mem_cons.mp ha with h' | h'
        · exact ⟨x, h' ▸ hfx⟩
        · exact ih bs hrest a h'

theorem pyRound_natCast (k : ℕ) : pyRound (k : ℚ) = k := by
  unfold pyRound
  rw [Int.floor_natCast]
  norm_num

theorem cyclicGet_mem (z : Record × ℚ) (zs : List (Record × ℚ)) (j : ℕ) :
    cyclicGet z zs j ∈ z :: zs := by
  unfold cyclicGet
  have hlt : j % (z :: zs).length < (z :: zs).length :=
    Nat.mod_lt _ (by simp)
  rw [List.getD_eq_getElem?_getD, List.getElem?_eq_getElem hlt]
  exact List.getElem_mem _

theorem eraseFirst_subset (x : Record × ℚ) :
    ∀ l : List (Record × ℚ), ∀ a ∈ eraseFirst l x, a ∈ l := by
  intro l
  induction l with
  | nil => intro a ha; simp [eraseFirst] at ha
  | cons y ys ih =>
    intro a ha
    unfold eraseFirst at ha
    split at ha
    · exact List.mem_cons_of_mem _ ha
    · rcases List.mem_cons.mp ha with h | h
      · exact h ▸ List.mem_cons_self _ _
      · exact List.mem_cons_of_mem _ (ih a h)

theorem length_eraseFirst_of_mem (x : Record × ℚ) :
    ∀ l : List (Record × ℚ), x ∈ l → (eraseFirst l x).length + 1 = l.length := by
  intro l
  induction l with
  | nil => intro h; simp at h
  | cons y ys ih =>
    intro hx
    unfold eraseFirst
    split
    · rfl
    · next hne =>
      have : x ∈ ys := by
        rcases List.mem_cons.mp hx with h | h
        · exact absurd h.symm hne
        · exact h
      simp only [List.length_cons, ih this]

theorem perm_cons_eraseFirst (x : Record × ℚ) :
    ∀ l : List (Record × ℚ), x ∈ l → l.Perm (x :: eraseFirst l x) := by
  intro l
  induction l with
  | nil => intro h; simp at h
  | cons y ys ih =>
    intro hx
    unfold eraseFirst
    split
    · next he => rw [he]
    · next hne =>
      have hys : x ∈ ys := by
        rcases List.mem_cons.mp hx with h | h
        · exact absurd h.symm hne
        · exact h
      exact ((ih hys).cons y).trans (List.Perm.swap x y _)

theorem drawWOR_perm (sel : ℕ → ℕ) :
    ∀ (n stepIdx : ℕ) (items : List (Record × ℚ)),
      n = items.length → (∀ x ∈ items, 0 < x.2) →
      ∃ chosen, drawWOR sel stepIdx n items = Except.ok chosen ∧
        chosen.Perm (items.map (fun x => x.1)) := by
  intro n
  induction n with
  | zero =>
    intro stepIdx items hlen _
    have : items = [] := List.length_eq_zero.mp hlen.symm
    subst this
    exact ⟨[], rfl, List.Perm.refl _⟩
  | succ n ih =>
    intro stepIdx items hlen hpos
    have hfil : items.filter (fun x => decide (0 < x.2)) = items :=
      List.filter_eq_self.mpr (fun x hx => decide_eq_true (hpos x hx))
    obtain ⟨z, zs, rfl⟩ : ∃ z zs, items = z :: zs := by
      cases items with
      | nil => simp at hlen
      | cons z zs => exact ⟨z, zs, rfl⟩
    have hmem : cyclicGet z zs (sel stepIdx) ∈ z :: zs := cyclicGet_mem _ _ _
    have hlen' : n = (eraseFirst (z :: zs) (cyclicGet z zs (sel stepIdx))).length := by
      have := length_eraseFirst_of_mem _ _ hmem
      simp only [List.length_cons] at hlen this
      omega
    have hpos' : ∀ x ∈ eraseFirst (z :: zs) (cyclicGet z zs (sel stepIdx)), 0 < x.2 :=
      fun x hx => hpos x (eraseFirst_subset _ _ x hx)
    obtain ⟨rest, hrest, hperm⟩ := ih (stepIdx + 1) _ hlen' hpos'
    refine ⟨(cyclicGet z zs (sel stepIdx)).1 :: rest, ?_, ?_⟩
    · unfold drawWOR
      rw [hfil]
      simp only [hrest]
    · refine (hperm.cons _).trans ?_
      have h2 := (perm_cons_eraseFirst _ _ hmem).symm.map (fun p : Record × ℚ => p.1)
      simpa using h2

theorem statusRecovery_some (m1 : FluModel) (a1 : FluAgent) (d : StatusDraws)
    (rt : ℤ) (hrt : a1.recovery_time = some rt) :
    statusRecovery m1 a1 d = Except.ok (m1,
      if rt ≤ m1.time - a1.infection_time then
        (if m1.biased then { a1 with state := State.RECOVERED, p_test := d.pTestRecovered }
         else { a1 with state := State.RECOVERED })
      else a1) := by
  unfold statusRecovery
  simp only [hrt]
  split <;> rfl

/-- Concrete fixtures used to instantiate the claims below. -/
def agInf : FluAgent :=
  { unique_id := 0
    state := State.INFECTED
    infection_time := 0
    recovery_time := some 3
    age := 40
    p_test := 1
    pos := (0, 0) }

def agSus : FluAgent :=
  { unique_id := 1
    state := State.SUSCEPTIBLE
    infection_time := 0
    recovery_time := none
    age := 40
    p_test := 1
    pos := (0, 0) }

def mDeath : FluModel :=
  { num_agents := 2
    width := 10
    height := 10
    death_rate := 1 / 2
    ptrans := 1 / 2
    recovery_days := 24
    recovery_sd := 6
    init_inf := 3 / 200
    biased := false
    deceased := 0
    time := 5
    scheduled := [0, 1]
    agents := [agInf, agSus] }

def drawsDie : StatusDraws := { pTestInfected := 2, alive := false, pTestRecovered := 1 / 2 }

/-- C1 counterexample: a `status()` call in which the agent dies (deceased
incremented, removed from the scheduler) AND the recovery check still runs,
marking the very same dying agent RECOVERED in the same call. -/
theorem flu_C1_cex :
    (FluAgent.status mDeath agInf drawsDie).map
        (fun p => (p.1.deceased, p.1.scheduled, p.2.state)) =
      Except.ok (1, [1], State.RECOVERED) := by
  norm_num [FluAgent.status, statusDeath, statusRecovery, mDeath, agInf, drawsDie,
    List.erase, Except.map]

/-- C1 amended: on a death draw, `status()` removes the agent from the
scheduler and increments `deceased`, but then still falls through to the
recovery check in the same call: the dying agent is additionally marked
RECOVERED whenever its elapsed illness time has reached `recovery_time`. -/
theorem flu_C1_amended (m : FluModel) (a : FluAgent) (d : StatusDraws) (rt : ℤ)
    (ha : a.state = State.INFECTED) (hrt : a.recovery_time = some rt)
    (hdr0 : 0 ≤ m.death_rate) (hdr1 : m.death_rate ≤ 1)
    (hdie : d.alive = false) :
    ∃ m' a', FluAgent.status m a d = Except.ok (m', a') ∧
      m'.deceased = m.deceased + 1 ∧
      m'.scheduled = m.scheduled.erase a.unique_id ∧
      (rt ≤ m.time - a.infection_time → a'.state = State.RECOVERED) ∧
      (m.time - a.infection_time < rt → a'.state = State.INFECTED) := by
  have hnv : ¬(m.death_rate < 0 ∨ 1 < m.death_rate) := by
    push_neg
    exact ⟨hdr0, hdr1⟩
  have ha1 : (if m.biased then { a with p_test := d.pTestInfected } else a).recovery_time
      = some rt := by
    split <;> exact hrt
  unfold FluAgent.status statusDeath
  rw [if_pos ha, if_neg hnv, hdie]
  simp only [Bool.false_eq_true, if_false]
  rw [statusRecovery_some _ _ _ rt ha1]
  refine ⟨_, _, rfl, rfl, ?_, ?_, ?_⟩
  · split <;> rfl
  · intro hle
    rw [if_pos ?_]
    · first
      | rfl
      | split <;> rfl
    · first
      | exact hle
      | split <;> exact hle
  · intro hlt
    rw [if_neg ?_]
    · first
      | exact ha
      | split <;> exact ha
    · first
      | exact not_le.mpr hlt
      | split <;> exact not_le.mpr hlt

/-- C1 witness: the amended theorem applied at the concrete death scenario. -/
theorem flu_C1_witness :
    ∃ m' a', FluAgent.status mDeath agInf drawsDie = Except.ok (m', a') ∧
      m'.deceased = mDeath.deceased + 1 ∧
      m'.scheduled = mDeath.scheduled.erase agInf.unique_id ∧
      (3 ≤ mDeath.time - agInf.infection_time → a'.state = State.RECOVERED) ∧
      (mDeath.time - agInf.infection_time < 3 → a'.state = State.INFECTED) :=
  flu_C1_amended mDeath agInf drawsDie 3 rfl rfl (by norm_num [mDeath])
    (by norm_num [mDeath]) rfl

/-- C3 counterexample: at a draw of 2.7 the code's `int()` returns 2, while
the nearest integer (`round`) is 3. -/
theorem flu_C3_cex :
    get_recovery_time (27 / 10) = 2 ∧ round ((27 : ℚ) / 10) = 3 ∧
      get_recovery_time (27 / 10) ≠ round ((27 : ℚ) / 10) := by
  norm_num [get_recovery_time, pyInt, round_eq]

/-- C3 amended: the recovery-time draw truncates toward zero (Python `int()`),
not to the nearest integer: the result is bounded by the draw in absolute
value, lies within one of it, and carries the draw's sign. -/
theorem flu_C3_amended (x : ℚ) :
    (0 ≤ x → (get_recovery_time x : ℚ) ≤ x ∧ x < get_recovery_time x + 1) ∧
    (x < 0 → x ≤ get_recovery_time x ∧ (get_recovery_time x : ℚ) < x + 1) := by
  constructor
  · intro hx
    unfold get_recovery_time pyInt
    rw [if_pos hx]
    exact ⟨Int.floor_le x, by exact_mod_cast Int.lt_floor_add_one x⟩
  · intro hx
    unfold get_recovery_time pyInt
    rw [if_neg (not_le.mpr hx)]
    refine ⟨Int.le_ceil x, ?_⟩
    have := Int.ceil_lt_add_one x
    exact_mod_cast this

/-- C3 witness: the truncation bounds evaluated at the concrete draw 2.7. -/
theorem flu_C3_witness :
    (get_recovery_time (27 / 10) : ℚ) ≤ 27 / 10 ∧
      (27 : ℚ) / 10 < get_recovery_time (27 / 10) + 1 :=
  (flu_C3_amended (27 / 10)).1 (by norm_num)

/-- C5 confirmed: sampling a tick with zero recorded individuals takes the
zero-weight-sum guard and reports a failure to the caller, before the
normalizing division is ever performed. -/
theorem flu_C5 (hist : List Record) (sel : ℕ → ℕ) (percent : ℚ) (i : ℤ)
    (h : hist.filter (fun r => decide (r.step = i)) = []) :
    FluModel.sample hist sel percent i =
      Except.error "Invalid weights: weights sum to zero" := by
  unfold FluModel.sample sampleTickWeights
  rw [h]
  simp

/-- C5 witness: a history with one record at tick 0, sampled at tick 1. -/
theorem flu_C5_witness :
    FluModel.sample [⟨0, 0, State.INFECTED, 1⟩] (fun _ => 0) 100 1 =
      Except.error "Invalid weights: weights sum to zero" :=
  flu_C5 [⟨0, 0, State.INFECTED, 1⟩] (fun _ => 0) 100 1 (by simp)

/-- Deterministic draws used for concrete constructor runs. -/
def drawsInit : InitDraws :=
  { age := fun _ => 40
    pTest := fun _ => 1
    placeX := fun _ => 3
    placeY := fun _ => 4
    infected := fun _ => true
    recDraw := fun _ => 24
    fallbackIdx := 0
    fallbackRec := 24 }

def cfgBadRate : FluConfig := { N := 1, death_rate := 2 }

/-- C4 counterexample: `death_rate = 2` lies outside `[0,1]`, yet the
constructor succeeds — no invalid-configuration failure is raised. -/
theorem flu_C4_cex :
    1 < cfgBadRate.death_rate ∧ (FluModel.init cfgBadRate drawsInit).isOk = true := by
  constructor
  · norm_num [cfgBadRate]
  · norm_num [FluModel.init, initAgents, initAgent, cfgBadRate, drawsInit,
      List.range, List.range.loop, get_recovery_time, pyInt, mkModel, forceInfect,
      applyFallback, Except.isOk, Except.toBool]

/-- C4 amended: the constructor validates nothing — for every `death_rate` and
`ptrans` whatsoever (in particular outside `[0,1]`), construction succeeds
whenever the population is non-empty, the grid dimensions are positive and the
initial-infection fraction `init_inf/100` lies in `[0,1]` (the only values
whose misuse can raise, and then only with generic `randrange`/`choice`
errors, not an invalid-configuration check). -/
theorem flu_C4_amended (c : FluConfig) (d : InitDraws) (dr pt : ℚ)
    (hN : 0 < c.N) (hw : 0 < c.width) (hh : 0 < c.height)
    (hi0 : 0 ≤ c.init_inf / 100) (hi1 : c.init_inf / 100 ≤ 1) :
    (FluModel.init { c with death_rate := dr, ptrans := pt } d).isOk = true := by
  have hagent : ∀ i ∈ List.range c.N.toNat,
      (initAgent { c with death_rate := dr, ptrans := pt } d i).isOk = true := by
    intro i _
    unfold initAgent
    have e1 : ({ c with death_rate := dr, ptrans := pt } : FluConfig).width = c.width := rfl
    have e2 : ({ c with death_rate := dr, ptrans := pt } : FluConfig).height = c.height := rfl
    have e3 : ({ c with death_rate := dr, ptrans := pt } : FluConfig).init_inf =
        c.init_inf := rfl
    simp only [e1, e2, e3]
    rw [if_neg (by push_neg; constructor <;> omega),
        if_neg (by push_neg; exact ⟨hi0, hi1⟩)]
    split <;> rfl
  obtain ⟨as, h1, h2⟩ := initAgents_ok _ d _ hagent
  have hlen : as.length = c.N.toNat := by
    rw [h2, List.length_range]
  have hne : as.isEmpty = false := by
    cases as with
    | nil =>
      simp only [List.length_nil] at hlen
      omega
    | cons x xs => rfl
  unfold FluModel.init
  simp only [h1, hne, Bool.false_eq_true, if_false]
  split
  · rfl
  · rfl

/-- C4 witness: the amended theorem at a concrete configuration with a
negative death rate and a transmission probability above 1. -/
theorem flu_C4_witness :
    (FluModel.init { { N := 2 : FluConfig } with death_rate := -3, ptrans := 7 }
      drawsInit).isOk = true :=
  flu_C4_amended { N := 2 } drawsInit (-3) 7 (by norm_num) (by norm_num)
    (by norm_num) (by norm_num) (by norm_num)

def mTrans0 : FluModel :=
  { num_agents := 2
    width := 10
    height := 10
    death_rate := 6 / 1000
    ptrans := 0
    recovery_days := 24
    recovery_sd := 6
    init_inf := 3 / 200
    biased := false
    deceased := 0
    time := 5
    scheduled := [0, 1]
    agents := [agInf, agSus] }

/-- C6 counterexample: with `transmission_probability = 0` and a uniform draw
of exactly 0, the skip test `random() > ptrans` fails (`0 > 0` is false), so
the SUSCEPTIBLE cellmate IS infected through `contact()`. -/
theorem flu_C6_cex :
    mTrans0.ptrans = 0 ∧
      mTrans0.agents.map (fun x => x.state) = [State.INFECTED, State.SUSCEPTIBLE] ∧
      (FluAgent.contact mTrans0 agInf (fun _ => ⟨0, 24⟩)).agents.map (fun x => x.state) =
        [State.INFECTED, State.INFECTED] := by
  refine ⟨rfl, rfl, ?_⟩
  norm_num [FluAgent.contact, contactList, contactUpdate, mTrans0, agInf, agSus,
    get_recovery_time, pyInt]
  rfl

/-- C6 amended: with `transmission_probability = 0`, `contact()` changes
nothing as long as every uniform draw is strictly positive; only a draw of
exactly 0 (which `random()` can return) passes the `draw > ptrans` skip test
and transmits. -/
theorem flu_C6_amended (m : FluModel) (a : FluAgent) (draws : ℕ → ContactDraw)
    (h0 : m.ptrans = 0) (hpos : ∀ k, 0 < (draws k).u) :
    FluAgent.contact m a draws = m := by
  unfold FluAgent.contact
  have hskip : ∀ k, m.ptrans < (draws k).u := by
    intro k
    rw [h0]
    exact hpos k
  rw [contactList_skip _ _ _ _ _ hskip]
  split
  · rfl
  · rfl

/-- C6 witness: the amended no-op theorem at a concrete two-agent cell with
all draws equal to 1. -/
theorem flu_C6_witness :
    FluAgent.contact mTrans0 agInf (fun _ => ⟨1, 24⟩) = mTrans0 :=
  flu_C6_amended mTrans0 agInf (fun _ => ⟨1, 24⟩) rfl (fun _ => by norm_num)

theorem map_set_eq_of_get? (f : FluAgent → ℕ) :
    ∀ (l : List FluAgent) (j : ℕ) (x y : FluAgent), l.get? j = some x → f y = f x →
      (l.set j y).map f = l.map f := by
  intro l
  induction l with
  | nil => intro j x y hx _; simp at hx
  | cons z zs ih =>
    intro j x y hx hf
    cases j with
    | zero =>
      simp only [List.get?_cons_zero, Option.some.injEq] at hx
      subst hx
      simp only [List.set_cons_zero, List.map_cons, hf]
    | succ j' =>
      simp only [List.get?_cons_succ] at hx
      simp only [List.set_cons_succ, List.map_cons, ih j' x y hx hf]

theorem move_unique_id (m : FluModel) (a : FluAgent) (c : Fin 9) :
    (FluAgent.move m a c).unique_id = a.unique_id := rfl

theorem contact_map_uid (m : FluModel) (a : FluAgent) (draws : ℕ → ContactDraw) :
    (FluAgent.contact m a draws).agents.map (fun x => x.unique_id) =
      m.agents.map (fun x => x.unique_id) := by
  unfold FluAgent.contact
  split
  · exact contactList_map_uid _ _ _ _ _ _ _
  · rfl

/-- C2 amended: death removes an individual from the scheduler only, never
from the grid: `status()` leaves the model's grid population untouched, and a
full `step()` (status, move, contact) preserves the identity list of the
agents on the grid — a deceased individual therefore stays on its cell and
keeps appearing in later `cellmates` queries. -/
theorem flu_C2_amended :
    (∀ m a d m' a', FluAgent.status m a d = Except.ok (m', a') →
      m'.agents = m.agents) ∧
    (∀ m ja d m', FluAgent.step m ja d = Except.ok m' →
      m'.agents.map (fun x => x.unique_id) = m.agents.map (fun x => x.unique_id)) := by
  constructor
  · intro m a d m' a' h
    exact (status_shape m a d m' a' h).1
  · intro m ja d m' h
    unfold FluAgent.step at h
    cases hget : m.agents.get? ja with
    | none =>
      simp only [hget] at h
      exact Except.noConfusion h
    | some a =>
      simp only [hget] at h
      cases hst : FluAgent.status m a d.statusDraws with
      | error e =>
        simp only [hst] at h
        exact Except.noConfusion h
      | ok p =>
        obtain ⟨m1, a1⟩ := p
        simp only [hst, Except.ok.injEq] at h
        subst h
        obtain ⟨hag, -, huid, -, -⟩ := status_shape m a d.statusDraws m1 a1 hst
        have hget1 : m1.agents.get? ja = some a := by rw [hag]; exact hget
        have hlt : ja < m1.agents.length := (List.get?_eq_some.mp hget1).fst
        have hget2 : (m1.agents.set ja a1).get? ja = some a1 :=
          List.get?_set_eq_of_lt _ hlt
        rw [contact_map_uid]
        have h2 : ((m1.agents.set ja a1).set ja
            (FluAgent.move { m1 with agents := m1.agents.set ja a1 } a1
              d.moveChoice)).map (fun x => x.unique_id) =
            (m1.agents.set ja a1).map (fun x => x.unique_id) :=
          map_set_eq_of_get? _ _ _ _ _ hget2 (move_unique_id _ _ _)
        rw [h2, map_set_eq_of_get? _ _ _ _ _ hget1 huid, hag]

def stepDrawsDie : StepDraws :=
  { statusDraws := drawsDie
    moveChoice := ⟨4, by norm_num⟩
    contactDraws := fun _ => ⟨1, 24⟩ }

/-- The model left behind by agent 0's dying step on `mDeath`. -/
def mDeathStepped : FluModel :=
  { num_agents := 2
    width := 10
    height := 10
    death_rate := 1 / 2
    ptrans := 1 / 2
    recovery_days := 24
    recovery_sd := 6
    init_inf := 3 / 200
    biased := false
    deceased := 1
    time := 5
    scheduled := [1]
    agents := [{ agInf with state := State.RECOVERED }, agSus] }

/-- C2 counterexample: after the tick in which agent 0 dies (it is gone from
the scheduler), agent 0 is still on cell (0,0) and still shows up in the
cellmates query for that cell. -/
theorem flu_C2_cex :
    FluAgent.step mDeath 0 stepDrawsDie = Except.ok mDeathStepped ∧
      (0 : ℕ) ∉ mDeathStepped.scheduled ∧
      (mDeathStepped.agents.filter (fun x => decide (x.pos = ((0 : ℤ), (0 : ℤ))))).map
        (fun x => x.unique_id) = [0, 1] := by
  refine ⟨?_, by decide, by decide⟩
  norm_num [FluAgent.step, FluAgent.status, statusDeath, statusRecovery,
    FluAgent.move, FluAgent.contact, contactList, contactUpdate, mooreOffsets,
    mDeath, mDeathStepped, agInf, agSus, drawsDie, stepDrawsDie, List.erase,
    get_recovery_time, pyInt]

/-- C2 witness: the id-preservation half of the amended theorem applied to the
concrete dying step. -/
theorem flu_C2_witness :
    ∃ m', FluAgent.step mDeath 0 stepDrawsDie = Except.ok m' ∧
      m'.agents.map (fun x => x.unique_id) =
        mDeath.agents.map (fun x => x.unique_id) := by
  cases h : FluAgent.step mDeath 0 stepDrawsDie with
  | error e =>
    exfalso
    revert h
    norm_num [FluAgent.step, FluAgent.status, statusDeath, statusRecovery,
      FluAgent.move, FluAgent.contact, contactList, contactUpdate, mooreOffsets,
      mDeath, agInf, agSus, drawsDie, stepDrawsDie, List.erase, get_recovery_time, pyInt]
    exact fun hc => Except.noConfusion hc
  | ok m' => exact ⟨m', rfl, flu_C2_amended.2 _ _ _ _ h⟩

/-- The invariant behind C10: an INFECTED individual always has a
`recovery_time` value assigned. -/
def agentWF (a : FluAgent) : Prop :=
  a.state = State.INFECTED → a.recovery_time.isSome = true

/-- Every individual on the grid satisfies `agentWF`. -/
def modelWF (m : FluModel) : Prop := ∀ a ∈ m.agents, agentWF a

theorem initAgent_wf (c : FluConfig) (d : InitDraws) (i : ℕ) (a : FluAgent)
    (h : initAgent c d i = Except.ok a) : agentWF a := by
  unfold initAgent at h
  split at h
  · exact Except.noConfusion h
  · split at h
    · exact Except.noConfusion h
    · split at h
      · simp only [Except.ok.injEq] at h
        subst h
        intro _
        rfl
      · simp only [Except.ok.injEq] at h
        subst h
        intro hs
        exact absurd hs (by simp)

theorem applyFallback_wf (d : InitDraws) (k : ℕ) :
    ∀ (l : List FluAgent) (j : ℕ), (∀ x ∈ l, agentWF x) →
      ∀ b ∈ applyFallback d k l j, agentWF b := by
  intro l
  induction l with
  | nil => intro j _ b hb; simp [applyFallback] at hb
  | cons x xs ih =>
    intro j hl b hb
    unfold applyFallback at hb
    rcases List.mem_cons.mp hb with h | h
    · subst h
      split
      · intro _
        rfl
      · exact hl x (List.mem_cons_self _ _)
    · exact ih (j + 1) (fun y hy => hl y (List.mem_cons_of_mem _ hy)) b h

theorem status_wf (m : FluModel) (a : FluAgent) (d : StatusDraws)
    (m' : FluModel) (a' : FluAgent) (hwf : agentWF a)
    (h : FluAgent.status m a d = Except.ok (m', a')) : agentWF a' := by
  unfold FluAgent.status at h
  split at h
  · split at h
    · exact Except.noConfusion h
    · obtain ⟨-, ha⟩ := statusDeath_shape _ _ _ _ _ h
      have hwf1 : agentWF (if m.biased then { a with p_test := d.pTestInfected } else a) := by
        intro hs
        have hs' : a.state = State.INFECTED := by
          revert hs
          split <;> exact fun hs => hs
        have hrt := hwf hs'
        split <;> exact hrt
      rcases ha with ha | ha | ha
      · rw [ha]
        exact hwf1
      · rw [ha]
        intro hs
        exact absurd hs (by simp)
      · rw [ha]
        intro hs
        exact absurd hs (by simp)
  · simp only [Except.ok.injEq, Prod.mk.injEq] at h
    rw [← h.2]
    exact hwf

theorem move_wf (m : FluModel) (a : FluAgent) (c : Fin 9) (hwf : agentWF a) :
    agentWF (FluAgent.move m a c) := hwf

theorem contact_wf (m : FluModel) (a : FluAgent) (draws : ℕ → ContactDraw)
    (hwf : modelWF m) : modelWF (FluAgent.contact m a draws) := by
  unfold FluAgent.contact modelWF
  split
  · intro b hb
    exact contactList_wf _ _ _ _ _ _ _ hwf b hb
  · exact hwf

/-- C10 confirmed: `recovery_time` is assigned on every path into INFECTED
(initial Bernoulli infection and forced fallback infection in the
constructor, transmission in `contact()`), the invariant is preserved by
every step, and under it the recovery comparison in `status()` never raises
the undefined-attribute error. -/
theorem flu_C10 :
    (∀ c d m, FluModel.init c d = Except.ok m → modelWF m) ∧
    (∀ m ja d m', modelWF m → FluAgent.step m ja d = Except.ok m' → modelWF m') ∧
    (∀ m a d, agentWF a →
      FluAgent.status m a d ≠ Except.error "AttributeError: recovery_time") := by
  refine ⟨?_, ?_, ?_⟩
  · intro c d m h
    unfold FluModel.init at h
    cases hags : initAgents c d (List.range c.N.toNat) with
    | error e =>
      simp only [hags] at h
      exact Except.noConfusion h
    | ok agents =>
      simp only [hags] at h
      have hwf : ∀ x ∈ agents, agentWF x := by
        intro x hx
        obtain ⟨i, hi⟩ := initAgents_mem c d _ agents hags x hx
        exact initAgent_wf c d i x hi
      split at h
      · split at h
        · exact Except.noConfusion h
        · simp only [Except.ok.injEq] at h
          subst h
          intro b hb
          exact applyFallback_wf d _ agents 0 hwf b hb
      · simp only [Except.ok.injEq] at h
        subst h
        exact hwf
  · intro m ja d m' hwf h
    unfold FluAgent.step at h
    cases hget : m.agents.get? ja with
    | none =>
      simp only [hget] at h
      exact Except.noConfusion h
    | some a =>
      simp only [hget] at h
      cases hst : FluAgent.status m a d.statusDraws with
      | error e =>
        simp only [hst] at h
        exact Except.noConfusion h
      | ok p =>
        obtain ⟨m1, a1⟩ := p
        simp only [hst, Except.ok.injEq] at h
        subst h
        have hamem : a ∈ m.agents := List.get?_mem hget
        have hwa : agentWF a := hwf a hamem
        have hwa1 : agentWF a1 := status_wf m a d.statusDraws m1 a1 hwa hst
        have hag : m1.agents = m.agents := (status_shape _ _ _ _ _ hst).1
        have hwf1 : ∀ x ∈ m1.agents.set ja a1, agentWF x := by
          intro x hx
          rcases List.mem_or_eq_of_mem_set hx with hx' | hx'
          · rw [hag] at hx'
            exact hwf x hx'
          · rw [hx']
            exact hwa1
        have hwf2 : ∀ x ∈ (m1.agents.set ja a1).set ja
            (FluAgent.move { m1 with agents := m1.agents.set ja a1 } a1 d.moveChoice),
            agentWF x := by
          intro x hx
          rcases List.mem_or_eq_of_mem_set hx with hx' | hx'
          · exact hwf1 x hx'
          · rw [hx']
            exact move_wf _ _ _ hwa1
        exact contact_wf _ _ _ hwf2
  · intro m a d hwf h
    unfold FluAgent.status at h
    split at h
    · next hinf =>
      split at h
      · simp at h
      · have hsome : (if m.biased then { a with p_test := d.pTestInfected } else a).recovery_time.isSome = true := by
          have := hwf hinf
          split <;> exact this
        unfold statusDeath statusRecovery at h
        cases hrt : (if m.biased then { a with p_test := d.pTestInfected } else a).recovery_time with
        | none => rw [hrt] at hsome; exact Bool.noConfusion hsome
        | some rt =>
          simp only [hrt] at h
          repeat' split at h
          all_goals exact Except.noConfusion h
    · exact Except.noConfusion h

def agWF10 : FluAgent :=
  { unique_id := 0
    state := State.INFECTED
    infection_time := 0
    recovery_time := some 7
    age := 40
    p_test := 1
    pos := (0, 0) }

/-- C10 witness: the no-AttributeError part at a concrete INFECTED agent with
an assigned recovery time. -/
theorem flu_C10_witness :
    FluAgent.status mDeath agWF10 drawsDie ≠
      Except.error "AttributeError: recovery_time" :=
  flu_C10.2.2 mDeath agWF10 drawsDie (fun _ => rfl)

/-- The cell an agent lands on after `move` with offset choice `c`. -/
def movedPos (m : FluModel) (a : FluAgent) (c : Fin 9) : ℤ × ℤ :=
  ((a.pos.1 + (mooreOffsets.get ⟨c.val, c.isLt⟩).1) % m.width,
   (a.pos.2 + (mooreOffsets.get ⟨c.val, c.isLt⟩).2) % m.height)

theorem contact_two (m3 : FluModel) (x y : FluAgent) (draws : ℕ → ContactDraw)
    (hag : m3.agents = [x, y]) (hy : y.pos = x.pos)
    (hux : ¬ m3.ptrans < (draws 0).u) (huy : ¬ m3.ptrans < (draws 1).u)
    (hx : x.state = State.INFECTED) (hys : y.state = State.SUSCEPTIBLE) :
    FluAgent.contact m3 x draws =
      { m3 with agents := [x, { y with state := State.INFECTED, infection_time := m3.time, recovery_time := some (get_recovery_time (draws 1).recoveryDraw) }] } := by
  unfold FluAgent.contact
  rw [hag]
  have hfil : List.filter (fun z => decide (z.pos = x.pos)) [x, y] = [x, y] := by
    simp [List.filter, hy]
  rw [hfil, if_pos (by norm_num)]
  have h1 : contactList x.state m3.ptrans m3.time x.pos draws [x, y] 0 =
      [contactUpdate x.state m3.ptrans m3.time (draws 0) x,
       contactUpdate x.state m3.ptrans m3.time (draws 1) y] := by
    unfold contactList
    rw [if_pos rfl]
    unfold contactList
    rw [if_pos hy]
    rfl
  have h2 : contactUpdate x.state m3.ptrans m3.time (draws 0) x = x := by
    unfold contactUpdate
    rw [if_neg hux, if_neg (by rw [hx]; rintro ⟨-, hcon⟩; exact State.noConfusion hcon)]
  have h3 : contactUpdate x.state m3.ptrans m3.time (draws 1) y =
      { y with state := State.INFECTED, infection_time := m3.time, recovery_time := some (get_recovery_time (draws 1).recoveryDraw) } := by
    unfold contactUpdate
    rw [if_neg huy, if_pos ⟨hx, hys⟩]
  rw [h1, h2, h3]

theorem move_eq (mm : FluModel) (x : FluAgent) (c : Fin 9) :
    FluAgent.move mm x c =
      { x with pos := ((x.pos.1 + (mooreOffsets.get ⟨c.val, c.isLt⟩).1) % mm.width,
                       (x.pos.2 + (mooreOffsets.get ⟨c.val, c.isLt⟩).2) % mm.height) } := rfl

/-- C9 confirmed: removal from the scheduler during `status()` does not stop
the rest of the agent's own `step()`: on a two-agent cell, an INFECTED agent
that dies in its death check still executes `move()` and `contact()` in the
same tick, and infects the SUSCEPTIBLE agent waiting on its landing cell. -/
theorem flu_C9 (m : FluModel) (a b : FluAgent) (d : StepDraws) (rt : ℤ)
    (hAg : m.agents = [a, b])
    (ha : a.state = State.INFECTED)
    (hrt : a.recovery_time = some rt)
    (hnr : m.time - a.infection_time < rt)
    (hdr0 : 0 ≤ m.death_rate) (hdr1 : m.death_rate ≤ 1)
    (hdie : d.statusDraws.alive = false)
    (hb : b.state = State.SUSCEPTIBLE)
    (hbpos : b.pos = movedPos m a d.moveChoice)
    (hu : ∀ k, (d.contactDraws k).u ≤ m.ptrans) :
    ∃ m', FluAgent.step m 0 d = Except.ok m' ∧
      m'.deceased = m.deceased + 1 ∧
      m'.scheduled = m.scheduled.erase a.unique_id ∧
      ∃ b', m'.agents.get? 1 = some b' ∧ b'.state = State.INFECTED ∧
        b'.infection_time = m.time := by
  have hnv : ¬(m.death_rate < 0 ∨ 1 < m.death_rate) := by
    push_neg
    exact ⟨hdr0, hdr1⟩
  set a1 : FluAgent :=
    if m.biased then { a with p_test := d.statusDraws.pTestInfected } else a with ha1def
  have euid : a1.unique_id = a.unique_id := by rw [ha1def]; split <;> rfl
  have estate : a1.state = a.state := by rw [ha1def]; split <;> rfl
  have einf : a1.infection_time = a.infection_time := by rw [ha1def]; split <;> rfl
  have ert : a1.recovery_time = some rt := by rw [ha1def]; split <;> exact hrt
  have epos : a1.pos = a.pos := by rw [ha1def]; split <;> rfl
  have hc : ¬ (rt ≤ ({ m with deceased := m.deceased + 1, scheduled := m.scheduled.erase a1.unique_id } : FluModel).time - a1.infection_time) := by
    have e1 : ({ m with deceased := m.deceased + 1, scheduled := m.scheduled.erase a1.unique_id } : FluModel).time = m.time := rfl
    rw [e1, einf]
    exact not_le.mpr hnr
  have hstatus : FluAgent.status m a d.statusDraws =
      Except.ok ({ m with deceased := m.deceased + 1, scheduled := m.scheduled.erase a1.unique_id }, a1) := by
    unfold FluAgent.status statusDeath
    rw [if_pos ha, if_neg hnv, hdie]
    simp only [Bool.false_eq_true, if_false]
    rw [statusRecovery_some _ _ _ rt ert, if_neg hc]
  have hget : m.agents.get? 0 = some a := by rw [hAg]; rfl
  have hbpos' : b.pos = ((a.pos.1 + (mooreOffsets.get ⟨d.moveChoice.val, d.moveChoice.isLt⟩).1) % m.width, (a.pos.2 + (mooreOffsets.get ⟨d.moveChoice.val, d.moveChoice.isLt⟩).2) % m.height) := by
    rw [hbpos]
    rfl
  unfold FluAgent.step
  simp only [hAg, List.get?_cons_zero, hstatus]
  simp only [List.set_cons_zero, move_eq, epos]
  have hxx : ({ a1 with pos := ((a.pos.1 + (mooreOffsets.get ⟨d.moveChoice.val, d.moveChoice.isLt⟩).1) % m.width, (a.pos.2 + (mooreOffsets.get ⟨d.moveChoice.val, d.moveChoice.isLt⟩).2) % m.height) } : FluAgent).state = State.INFECTED :=
    estate.trans ha
  have hcon := contact_two
    { m with deceased := m.deceased + 1, scheduled := m.scheduled.erase a1.unique_id, agents := [{ a1 with pos := ((a.pos.1 + (mooreOffsets.get ⟨d.moveChoice.val, d.moveChoice.isLt⟩).1) % m.width, (a.pos.2 + (mooreOffsets.get ⟨d.moveChoice.val, d.moveChoice.isLt⟩).2) % m.height) }, b] }
    { a1 with pos := ((a.pos.1 + (mooreOffsets.get ⟨d.moveChoice.val, d.moveChoice.isLt⟩).1) % m.width, (a.pos.2 + (mooreOffsets.get ⟨d.moveChoice.val, d.moveChoice.isLt⟩).2) % m.height) }
    b d.contactDraws rfl hbpos' (not_lt.mpr (hu 0)) (not_lt.mpr (hu 1)) hxx hb
  refine ⟨_, rfl, ?_, ?_, ?_⟩
  · rw [hcon]
  · rw [hcon]
    show m.scheduled.erase a1.unique_id = m.scheduled.erase a.unique_id
    rw [euid]
  · rw [hcon]
    exact ⟨_, rfl, rfl, rfl⟩

def agLong : FluAgent := { agInf with recovery_time := some 100 }

def mNine : FluModel := { mDeath with ptrans := 1, agents := [agLong, agSus] }

def stepDrawsNine : StepDraws :=
  { statusDraws := drawsDie
    moveChoice := ⟨4, by norm_num⟩
    contactDraws := fun _ => ⟨1, 24⟩ }

/-- C9 witness: the dying-agent theorem at a concrete two-agent cell. -/
theorem flu_C9_witness :
    ∃ m', FluAgent.step mNine 0 stepDrawsNine = Except.ok m' ∧
      m'.deceased = mNine.deceased + 1 ∧
      m'.scheduled = mNine.scheduled.erase agLong.unique_id ∧
      ∃ b', m'.agents.get? 1 = some b' ∧ b'.state = State.INFECTED ∧
        b'.infection_time = mNine.time :=
  flu_C9 mNine agLong agSus stepDrawsNine 100 rfl rfl rfl
    (by norm_num [mNine, mDeath, agLong, agInf])
    (by norm_num [mNine, mDeath]) (by norm_num [mNine, mDeath]) rfl rfl
    (by decide)
    (fun k => by norm_num [mNine, mDeath, stepDrawsNine])

/-- C8 amended: `sample(100, t)` returns the exact INFECTED count of tick `t`
provided every weight of the tick is strictly positive (and the whole-history
weight total is positive) — with a zero or negative weight in the tick the
draw fails instead, so positivity, not just absence of ties, is what the
claim needs. -/
theorem flu_C8_amended (hist : List Record) (sel : ℕ → ℕ) (t : ℤ)
    (hne : hist.filter (fun r => decide (r.step = t)) ≠ [])
    (htot : 0 < (hist.map (fun r => r.p)).sum)
    (hpos : ∀ r ∈ hist.filter (fun r => decide (r.step = t)), 0 < r.p)
    (hties : (hist.filter (fun r => decide (r.step = t))).Pairwise
      (fun r s => r.p ≠ s.p)) :
    FluModel.sample hist sel 100 t =
      Except.ok ((hist.filter (fun r => decide (r.step = t))).countP
        (fun r => decide (r.state = State.INFECTED))) := by
  have hwpos : ∀ x ∈ sampleTickWeights hist t, 0 < x.2 := by
    intro x hx
    unfold sampleTickWeights at hx
    obtain ⟨r, hr, rfl⟩ := List.mem_map.mp hx
    exact div_pos (hpos r hr) htot
  have hneT : sampleTickWeights hist t ≠ [] := by
    unfold sampleTickWeights
    intro hcon
    exact hne (List.map_eq_nil.mp hcon)
  have hany : ((sampleTickWeights hist t).any fun x => decide (x.2 < 0)) = false := by
    rw [List.any_eq_false]
    intro x hx
    simp only [decide_eq_true_eq]
    exact not_lt.mpr (le_of_lt (hwpos x hx))
  have hsum : 0 < ((sampleTickWeights hist t).map (fun x => x.2)).sum := by
    apply List.sum_pos
    · intro w hw
      obtain ⟨x, hx, rfl⟩ := List.mem_map.mp hw
      exact hwpos x hx
    · intro hcon
      exact hneT (List.map_eq_nil.mp hcon)
  have hnormpos : ∀ y ∈ (sampleTickWeights hist t).map
      (fun x => (x.1, x.2 / ((sampleTickWeights hist t).map (fun x => x.2)).sum)),
      0 < y.2 := by
    intro y hy
    obtain ⟨x, hx, rfl⟩ := List.mem_map.mp hy
    exact div_pos (hwpos x hx) hsum
  have hn : (pyRound ((100 : ℚ) / 100 * ((sampleTickWeights hist t).length : ℚ))).toNat =
      ((sampleTickWeights hist t).map
        (fun x => (x.1, x.2 / ((sampleTickWeights hist t).map (fun x => x.2)).sum))).length := by
    rw [List.length_map]
    have h100 : (100 : ℚ) / 100 * ((sampleTickWeights hist t).length : ℚ) =
        ((sampleTickWeights hist t).length : ℚ) := by norm_num
    rw [h100, pyRound_natCast]
    omega
  obtain ⟨chosen, hdraw, hperm⟩ :=
    drawWOR_perm sel
      ((pyRound ((100 : ℚ) / 100 * ((sampleTickWeights hist t).length : ℚ))).toNat)
      0 _ hn hnormpos
  have hL1 : ∀ (A : List (Record × ℚ)) (h : Record × ℚ → Record × ℚ),
      (∀ x, (h x).1 = x.1) → (A.map h).map (fun x => x.1) = A.map (fun x => x.1) := by
    intro A h hh
    rw [List.map_map]
    have he : ((fun x : Record × ℚ => x.1) ∘ h) = fun x : Record × ℚ => x.1 :=
      funext fun x => hh x
    rw [he]
  have hL2 : ∀ (T : List Record) (g : Record → Record × ℚ),
      (∀ r, (g r).1 = r) → (T.map g).map (fun x => x.1) = T := by
    intro T g hg
    rw [List.map_map]
    have he : ((fun x : Record × ℚ => x.1) ∘ g) = fun r : Record => r :=
      funext fun r => hg r
    rw [he]
    exact List.map_id' T
  have hmapfst : ((sampleTickWeights hist t).map
      (fun x => (x.1, x.2 / ((sampleTickWeights hist t).map (fun x => x.2)).sum))).map
        (fun x => x.1) = hist.filter (fun r => decide (r.step = t)) := by
    rw [hL1 _ (fun x => (x.1, x.2 / ((sampleTickWeights hist t).map (fun x => x.2)).sum))
      (fun x => rfl)]
    unfold sampleTickWeights
    exact hL2 _ (fun r => (r, r.p / (hist.map (fun r => r.p)).sum)) (fun r => rfl)
  unfold FluModel.sample
  rw [hany]
  simp only [Bool.false_eq_true, if_false]
  rw [if_neg (ne_of_gt hsum)]
  unfold sampleDraw
  simp only [hdraw]
  have hcount : chosen.countP (fun r => decide (r.state = State.INFECTED)) =
      (hist.filter (fun r => decide (r.step = t))).countP
        (fun r => decide (r.state = State.INFECTED)) := by
    rw [hperm.countP_eq, hmapfst]
  rw [hcount]

def histC8 : List Record :=
  [⟨0, 0, State.INFECTED, 1⟩, ⟨0, 1, State.SUSCEPTIBLE, 0⟩]

set_option maxHeartbeats 1000000 in
/-- C8 counterexample: tick 0 has K = 2 records with distinct weights (1 and
0, no ties), one of them INFECTED, but `sample(100, 0)` cannot draw 2 rows
without replacement when only one row has positive weight: it fails instead
of returning the INFECTED count 1. -/
theorem flu_C8_cex :
    (histC8.filter (fun r => decide (r.step = 0))).Pairwise (fun r s => r.p ≠ s.p) ∧
      (histC8.filter (fun r => decide (r.step = 0))).countP
        (fun r => decide (r.state = State.INFECTED)) = 1 ∧
      FluModel.sample histC8 (fun _ => 0) 100 0 =
        Except.error "Fewer non-zero entries in p than size" := by
  refine ⟨?_, ?_, ?_⟩
  · norm_num [histC8, List.filter, List.pairwise_cons]
  · decide
  · norm_num [FluModel.sample, sampleTickWeights, sampleDraw, histC8, List.filter,
      drawWOR, cyclicGet, eraseFirst, pyRound]

def histPos : List Record :=
  [⟨0, 0, State.INFECTED, 1⟩, ⟨0, 1, State.SUSCEPTIBLE, 2⟩, ⟨1, 0, State.RECOVERED, 4⟩]

/-- C8 witness: the amended theorem on a tick with all-positive weights. -/
theorem flu_C8_witness :
    FluModel.sample histPos (fun _ => 0) 100 0 =
      Except.ok ((histPos.filter (fun r => decide (r.step = 0))).countP
        (fun r => decide (r.state = State.INFECTED))) :=
  flu_C8_amended histPos (fun _ => 0) 0
    (by simp [histPos, List.filter])
    (by norm_num [histPos])
    (by
      intro r hr
      simp only [histPos, List.filter] at hr
      norm_num at hr
      rcases hr with hr | hr <;> rw [hr] <;> norm_num)
    (by
      simp only [histPos, List.filter]
      norm_num [List.pairwise_cons])

/-- C7 confirmed: state changes are monotone along
SUSCEPTIBLE → INFECTED → RECOVERED.  `status()` moves only INFECTED →
RECOVERED (or leaves the state alone), and the cellmate loop of `contact()`
moves any agent on the cell only SUSCEPTIBLE → INFECTED (or leaves it alone);
no operation ever sets RECOVERED → INFECTED or INFECTED → SUSCEPTIBLE. -/
theorem flu_C7 :
    (∀ m a d m' a', FluAgent.status m a d = Except.ok (m', a') →
      stepOK a.state a'.state) ∧
    (∀ m a draws j x y, m.agents.get? j = some x →
      (FluAgent.contact m a draws).agents.get? j = some y →
      stepOK x.state y.state) := by
  constructor
  · intro m a d m' a' h
    exact (status_shape m a d m' a' h).2.2.2.2
  · intro m a draws j x y hx hy
    unfold FluAgent.contact at hy
    split at hy
    · obtain ⟨x', hx', hcase⟩ := contactList_get? _ _ _ _ _ _ _ _ _ hy
      rw [hx] at hx'
      cases hx'
      rcases hcase with h | ⟨n, h⟩
      · rw [h]
        exact stepOK_refl _
      · rw [h]
        exact contactUpdate_stepOK _ _ _ _ _
    · rw [hx] at hy
      cases hy
      exact stepOK_refl _

/-- C7 witness: the `contact` half applied to a concrete infecting call. -/
theorem flu_C7_witness :
    stepOK State.INFECTED State.INFECTED := by
  have h := flu_C7.2 mTrans0 agInf (fun _ => ⟨1, 24⟩) 0 agInf agInf rfl
  exact h (by norm_num [FluAgent.contact, contactList, contactUpdate, mTrans0, agInf, agSus])
